import Mathlib

/-!
Verification of the DevBoot process-supervisor frontend and its specified
backend behaviour.  Definitions are shallow embeddings of the TypeScript
sources (`src/unnamed/part_004` constants, `part_006` Terminal component,
`part_007` useProjects hook, `src/types/index.ts`); components whose Rust
implementation is not part of the sources (registry, crash policy,
input relay, detector) are modelled from the specification and marked so.
-/

namespace DevBoot

/-! ## String helpers (embedding of JS `String.prototype.includes` and
`toLowerCase` used by the Terminal component) -/

/-- Whether `pat` occurs at the head of `s` (over character lists). -/
def leadMatch : List Char → List Char → Bool
  | [], _ => true
  | _ :: _, [] => false
  | p :: ps, c :: cs => p == c && leadMatch ps cs

/-- Whether `pat` occurs anywhere inside `s` (over character lists). -/
def hasSub (pat : List Char) : List Char → Bool
  | [] => leadMatch pat []
  | c :: cs => leadMatch pat (c :: cs) || hasSub pat cs

/-- Embedding of JS `s.includes(pat)`. -/
def strIncludes (s pat : String) : Bool :=
  hasSub pat.toList s.toList

/-- Embedding of JS `s.toLowerCase()` (restricted to the per-character
lowering that is all the log keywords need). -/
def strLower (s : String) : String :=
  ⟨s.toList.map Char.toLower⟩

/-! ## Constants (src/unnamed/part_004) -/

/-- `export const MAX_LOG_LINES = 1000;` -/
def MAX_LOG_LINES : Nat := 1000

/-- `export const RESTART_DELAY_MS = 2000;` -/
def RESTART_DELAY_MS : Nat := 2000

/-- `export const MAX_RESTART_ATTEMPTS = 5;` -/
def MAX_RESTART_ATTEMPTS : Nat := 5

/-! ## Log line presentation (src/unnamed/part_006, `formatLog`) -/

/-- Result of rendering one log line: the CSS class of the surrounding
span (none when the line is rendered bare) and the rendered text. -/
structure RenderedLog where
  cls : Option String
  text : String
  deriving Repr, DecidableEq

/-- Embedding of `formatLog` from the Terminal component:
errors first (`log.includes('[ERR]') || log.toLowerCase().includes('error')`),
then warnings (`warning`/`warn`, lowercased), then successes
(`success`/`started`/`connected`, lowercased), else the bare line. -/
def formatLog (log : String) : RenderedLog :=
  if strIncludes log "[ERR]" || strIncludes (strLower log) "error" then
    ⟨some "log-error", log⟩
  else if strIncludes (strLower log) "warning" || strIncludes (strLower log) "warn" then
    ⟨some "log-warn", log⟩
  else if strIncludes (strLower log) "success" || strIncludes (strLower log) "started"
      || strIncludes (strLower log) "connected" then
    ⟨some "log-success", log⟩
  else
    ⟨none, log⟩

/-! ## Frontend log buffer (src/unnamed/part_007, process-log listener):
`[...(prev[project_id] || []), log].slice(-1000)` -/

/-- Embedding of JS `arr.slice(-n)`: the last `n` elements (all of them
when the array is shorter). -/
def sliceLast (n : Nat) (l : List String) : List String :=
  l.drop (l.length - n)

/-- Embedding of the `process-log` listener body: append the new line and
keep the last 1000 entries. -/
def appendLog (prev : List String) (log : String) : List String :=
  sliceLast MAX_LOG_LINES (prev ++ [log])

/-- The buffer obtained by replaying a whole sequence of appended lines
starting from the empty buffer. -/
def replayLogs (lines : List String) : List String :=
  lines.foldl appendLog []

lemma sliceLast_length (n : Nat) (l : List String) :
    (sliceLast n l).length = l.length - (l.length - n) := by
  simp [sliceLast]

lemma sliceLast_of_le {n : Nat} {l : List String} (h : l.length ≤ n) :
    sliceLast n l = l := by
  simp [sliceLast, Nat.sub_eq_zero_of_le h]

lemma appendLog_sliceLast (xs : List String) (a : String) :
    appendLog (sliceLast MAX_LOG_LINES xs) a = sliceLast MAX_LOG_LINES (xs ++ [a]) := by
  rcases le_or_lt xs.length MAX_LOG_LINES with h | h
  · rw [sliceLast_of_le h]
    rfl
  · have h1000 : MAX_LOG_LINES = 1000 := rfl
    rw [h1000] at h
    have hs : (List.drop (xs.length - 1000) xs).length = 1000 := by
      rw [List.length_drop]
      omega
    unfold appendLog sliceLast
    rw [h1000]
    rw [List.drop_append_of_le_length
          (by simp only [List.length_append, List.length_singleton, hs]; omega),
        List.drop_append_of_le_length
          (by simp only [List.length_append, List.length_singleton]; omega),
        List.drop_drop]
    have hidx : (xs.length - 1000)
          + ((List.drop (xs.length - 1000) xs ++ [a]).length - 1000)
        = (xs ++ [a]).length - 1000 := by
      simp only [List.length_append, List.length_singleton, hs]
      omega
    rw [hidx]

theorem replayLogs_eq (lines : List String) :
    replayLogs lines = sliceLast MAX_LOG_LINES lines := by
  induction lines using List.reverseRecOn with
  | nil => rfl
  | append_singleton xs a ih =>
      unfold replayLogs at *
      rw [List.foldl_append, List.foldl_cons, List.foldl_nil, ih,
        appendLog_sliceLast]

/-- Claim C1: for every project and every sequence of appended log lines,
the log buffer holds at most 1000 lines at all times, equals the most
recent at-most-1000 lines in append order, and appending to a full buffer
evicts exactly the oldest line. -/
theorem claim_C1_log_buffer_cap_fifo (lines : List String) :
    ((replayLogs lines).length ≤ MAX_LOG_LINES ∧
      replayLogs lines = sliceLast MAX_LOG_LINES lines) ∧
    ∀ prev a, prev.length = MAX_LOG_LINES →
      appendLog prev a = prev.tail ++ [a] := by
  refine ⟨⟨?_, replayLogs_eq lines⟩, ?_⟩
  · rw [replayLogs_eq, sliceLast_length]
    have h1000 : MAX_LOG_LINES = 1000 := rfl
    rw [h1000]
    omega
  · intro prev a hfull
    have h1000 : MAX_LOG_LINES = 1000 := rfl
    rw [h1000] at hfull
    unfold appendLog sliceLast
    have hidx : (prev ++ [a]).length - MAX_LOG_LINES = 1 := by
      simp only [List.length_append, List.length_singleton, hfull]
      rfl
    rw [hidx, List.drop_append_of_le_length (by omega), List.drop_one]

/-- Witness for claim C1 at a concrete full buffer. -/
theorem claim_C1_log_buffer_cap_fifo_witness :
    (List.replicate 1000 "x").length = MAX_LOG_LINES ∧
    appendLog (List.replicate 1000 "x") "y" = (List.replicate 1000 "x").tail ++ ["y"] :=
  ⟨List.length_replicate 1000 "x",
   (claim_C1_log_buffer_cap_fifo []).2 (List.replicate 1000 "x") "y"
     (List.length_replicate 1000 "x")⟩

/-! ## Log export (src/unnamed/part_006, `handleExportLogs`) -/

/-- The five header entries `handleExportLogs` places before the log
lines: title with the project name, export timestamp, line count, a
50-character separator, and a blank line. -/
def exportHeader (projectName exportedAt : String) (n : Nat) : List String :=
  [s!"DevBoot Logs - {projectName}",
   s!"Exported: {exportedAt}",
   s!"Total lines: {n}",
   String.mk (List.replicate 50 '='),
   ""]

/-- Embedding of the array `handleExportLogs` builds before `.join('\n')`:
`none` models the early return `if (logs.length === 0) return;`. -/
def exportLines (projectName exportedAt : String) (logs : List String) :
    Option (List String) :=
  if logs.length == 0 then none
  else some (exportHeader projectName exportedAt logs.length ++ logs)

/-- The exported text document: the entries joined with a newline, as in
`[...].join('\n')`. -/
def exportContent (projectName exportedAt : String) (logs : List String) :
    Option String :=
  (exportLines projectName exportedAt logs).map (String.intercalate "\n")

/-- Embedding of the Export button attribute `disabled={logs.length === 0}`. -/
def exportDisabled (logs : List String) : Bool :=
  logs.length == 0

/-- Claim C3: exporting a buffer of exactly N ≥ 1 lines produces a
document whose entries are a fixed 5-entry header carrying the project
name, a timestamp and the line count N, followed by exactly those N lines
in append order; the text document joins them with newlines. -/
theorem claim_C3_export_roundtrip (name ts : String) (logs : List String)
    (h : logs ≠ []) :
    ∃ doc, exportLines name ts logs = some doc ∧
      doc = exportHeader name ts logs.length ++ logs ∧
      doc.take 5 = exportHeader name ts logs.length ∧
      doc.drop 5 = logs ∧
      (exportHeader name ts logs.length).length = 5 ∧
      exportContent name ts logs = some (String.intercalate "\n" doc) := by
  have hlen : (logs.length == 0) = false := by
    simp [List.length_eq_zero, h]
  refine ⟨exportHeader name ts logs.length ++ logs, ?_, rfl, ?_, ?_, rfl, ?_⟩
  · rw [exportLines, hlen]
    rfl
  · rw [List.take_append_of_le_length (by rfl)]
    rfl
  · rw [List.drop_append_of_le_length (by rfl)]
    rfl
  · rw [exportContent, exportLines, hlen]
    rfl

/-- Witness for claim C3 at a concrete two-line buffer. -/
theorem claim_C3_export_roundtrip_witness :
    (["line a", "line b"] : List String) ≠ [] ∧
    ∃ doc, exportLines "proj" "ts" ["line a", "line b"] = some doc ∧
      doc = exportHeader "proj" "ts" 2 ++ ["line a", "line b"] ∧
      doc.take 5 = exportHeader "proj" "ts" 2 ∧
      doc.drop 5 = ["line a", "line b"] ∧
      (exportHeader "proj" "ts" 2).length = 5 ∧
      exportContent "proj" "ts" ["line a", "line b"]
        = some (String.intercalate "\n" doc) :=
  ⟨by decide, claim_C3_export_roundtrip "proj" "ts" ["line a", "line b"] (by decide)⟩

/-- Claim C9: exporting with an empty log list is a no-op — the handler
returns immediately, no document is produced, and the export button is
disabled. -/
theorem claim_C9_export_empty_noop (name ts : String) :
    exportLines name ts [] = none ∧
    exportContent name ts [] = none ∧
    exportDisabled [] = true := by
  refine ⟨rfl, rfl, rfl⟩

/-! ## Log tag classification claims -/

/-- Case-insensitive keyword occurrence: both the line and the keyword
are lowered before matching. -/
def kwMatchCI (line kw : String) : Bool :=
  strIncludes (strLower line) (strLower kw)

/-- The tag rule of claim C4 as amended: the `[ERR]` keyword is matched
exact-case, every other keyword case-insensitively, with error before
warning before success precedence. -/
def amendedTagRule (log : String) : Option String :=
  if strIncludes log "[ERR]" || kwMatchCI log "error" then some "log-error"
  else if kwMatchCI log "warning" || kwMatchCI log "warn" then some "log-warn"
  else if kwMatchCI log "success" || kwMatchCI log "started"
      || kwMatchCI log "connected" then some "log-success"
  else none

/-- Counterexample to claim C4 as stated: classification is not
case-insensitive keyword matching, because `[ERR]` is matched exact-case —
the line `[ERR]` is tagged as an error while its lowercase form `[err]`
is left untagged. -/
theorem claim_C4_counterexample :
    strLower "[ERR]" = "[err]" ∧
    (formatLog "[ERR]").cls = some "log-error" ∧
    (formatLog "[err]").cls = none := by
  refine ⟨by decide, by decide, by decide⟩

/-- Claim C4 as amended: the tag is decided by keyword matching in which
`[ERR]` is exact-case and all other keywords are case-insensitive, and
tagging is presentation-only — the rendered text is the unmodified line. -/
theorem claim_C4_amended_tagging (log : String) :
    (formatLog log).text = log ∧ (formatLog log).cls = amendedTagRule log := by
  have he : strLower "error" = "error" := by decide
  have hw1 : strLower "warning" = "warning" := by decide
  have hw2 : strLower "warn" = "warn" := by decide
  have hs1 : strLower "success" = "success" := by decide
  have hs2 : strLower "started" = "started" := by decide
  have hs3 : strLower "connected" = "connected" := by decide
  unfold formatLog amendedTagRule kwMatchCI
  rw [he, hw1, hw2, hs1, hs2, hs3]
  constructor
  · split
    · rfl
    · split
      · rfl
      · split
        · rfl
        · rfl
  · split
    · rfl
    · split
      · rfl
      · split
        · rfl
        · rfl

/-- Error-keyword condition of claim C10: `[ERR]` exact-case, or `error`
case-insensitively. -/
def errKw (log : String) : Bool :=
  strIncludes log "[ERR]" || strIncludes (strLower log) "error"

/-- Warning-keyword condition of claim C10: `warning` or `warn`,
case-insensitively. -/
def warnKw (log : String) : Bool :=
  strIncludes (strLower log) "warning" || strIncludes (strLower log) "warn"

/-- Success-keyword condition of claim C10: `success`, `started` or
`connected`, case-insensitively. -/
def succKw (log : String) : Bool :=
  strIncludes (strLower log) "success" || strIncludes (strLower log) "started"
    || strIncludes (strLower log) "connected"

/-- Claim C10: tag precedence — an error match wins even when warning or
success keywords also occur, a warning match wins over success, and a line
matching none of the keyword groups is untagged. -/
theorem claim_C10_tag_precedence (log : String) :
    (errKw log = true → (formatLog log).cls = some "log-error") ∧
    (errKw log = false → warnKw log = true →
      (formatLog log).cls = some "log-warn") ∧
    (errKw log = false → warnKw log = false → succKw log = true →
      (formatLog log).cls = some "log-success") ∧
    (errKw log = false → warnKw log = false → succKw log = false →
      (formatLog log).cls = none) := by
  unfold formatLog errKw warnKw succKw
  refine ⟨fun h1 => ?_, fun h1 h2 => ?_, fun h1 h2 h3 => ?_, fun h1 h2 h3 => ?_⟩
  · rw [if_pos h1]
  · rw [if_neg (by simp [h1]), if_pos h2]
  · rw [if_neg (by simp [h1]), if_neg (by simp [h2]), if_pos h3]
  · rw [if_neg (by simp [h1]), if_neg (by simp [h2]), if_neg (by simp [h3])]

/-- Witness for claim C10: a line matching error and success keywords is
tagged error, one matching warning and success keywords is tagged warning,
a success-only line is tagged success, and a plain line is untagged. -/
theorem claim_C10_tag_precedence_witness :
    (formatLog "error success").cls = some "log-error" ∧
    (formatLog "warning success").cls = some "log-warn" ∧
    (formatLog "Connected").cls = some "log-success" ∧
    (formatLog "hello").cls = none :=
  ⟨(claim_C10_tag_precedence "error success").1 (by decide),
   (claim_C10_tag_precedence "warning success").2.1 (by decide) (by decide),
   (claim_C10_tag_precedence "Connected").2.2.1 (by decide) (by decide) (by decide),
   (claim_C10_tag_precedence "hello").2.2.2 (by decide) (by decide) (by decide)⟩

/-! ## Lifecycle states (src/types/index.ts, `ProcessStatus`) -/

/-- Embedding of `type ProcessStatus = 'stopped' | 'running' | 'error'
| 'restarting'`. -/
inductive ProcessStatus where
  | stopped
  | running
  | error
  | restarting
  deriving Repr, DecidableEq

/-! ## Process Registry state lookup (claim C6) -/

/-- Modelled from the spec: the Process Registry (Rust backend
`src-tauri`, absent from the sources) tracks at most one entry per
project id; `get_state(id)` looks the id up and reports `Stopped` when no
supervised process entry exists. -/
def get_state (registry : List (String × ProcessStatus)) (id : String) :
    ProcessStatus :=
  match registry.find? (fun p => p.1 == id) with
  | some p => p.2
  | none => ProcessStatus.stopped

/-- Embedding of the Sidebar status lookup
`const status = statuses[project.id] || 'stopped';`
(src/src/components/Sidebar.tsx). -/
def sidebarStatus (statuses : List (String × ProcessStatus)) (id : String) :
    ProcessStatus :=
  match statuses.find? (fun p => p.1 == id) with
  | some p => p.2
  | none => ProcessStatus.stopped

/-- Claim C6: an id with no supervised process entry — unknown or never
started — reports `Stopped` rather than failing, both at the registry and
at the Sidebar fallback. -/
theorem claim_C6_unknown_id_stopped (registry statuses : List (String × ProcessStatus))
    (id : String) (h : ∀ e ∈ registry, e.1 ≠ id) (h2 : ∀ e ∈ statuses, e.1 ≠ id) :
    get_state registry id = ProcessStatus.stopped ∧
    sidebarStatus statuses id = ProcessStatus.stopped := by
  have hr : registry.find? (fun p => p.1 == id) = none :=
    List.find?_eq_none.mpr (fun x hx => by simpa using h x hx)
  have hs : statuses.find? (fun p => p.1 == id) = none :=
    List.find?_eq_none.mpr (fun x hx => by simpa using h2 x hx)
  rw [get_state, sidebarStatus, hr, hs]
  exact ⟨rfl, rfl⟩

/-- Witness for claim C6 at a concrete registry holding only other ids. -/
theorem claim_C6_unknown_id_stopped_witness :
    get_state [("a", ProcessStatus.running)] "c" = ProcessStatus.stopped ∧
    sidebarStatus [("b", ProcessStatus.error)] "c" = ProcessStatus.stopped :=
  claim_C6_unknown_id_stopped [("a", ProcessStatus.running)]
    [("b", ProcessStatus.error)] "c" (by decide) (by decide)

/-! ## Input Relay (claim C7) -/

/-- Typed failure of the Input Relay. -/
inductive InputError where
  | notRunning
  deriving Repr, DecidableEq

/-- Modelled from the spec: the Input Relay (Rust backend, absent from
the sources) — per live process id, the sequence of chunks written so far
to that process's input stream; `send_input(id, text)` fails `NotRunning`
if no live process, else writes the text plus a line terminator. -/
def send_input (procs : List (String × List String)) (id text : String) :
    Except InputError (List (String × List String)) :=
  match procs.find? (fun p => p.1 == id) with
  | none => Except.error InputError.notRunning
  | some _ =>
      Except.ok (procs.map (fun p =>
        if p.1 == id then (p.1, p.2 ++ [text ++ "\n"]) else p))

/-- The chunks written so far to the input stream of process `id`. -/
def writesOf (procs : List (String × List String)) (id : String) : List String :=
  match procs.find? (fun p => p.1 == id) with
  | some p => p.2
  | none => []

lemma writesOf_update (procs : List (String × List String)) (id text : String)
    (h : (procs.find? (fun p => p.1 == id)).isSome) :
    writesOf (procs.map (fun p =>
        if p.1 == id then (p.1, p.2 ++ [text ++ "\n"]) else p)) id
      = writesOf procs id ++ [text ++ "\n"] := by
  induction procs with
  | nil => simp [List.find?] at h
  | cons hd tl ih =>
      by_cases hc : (hd.1 == id) = true
      · simp [writesOf, List.find?, hc]
      · have hc' : (hd.1 == id) = false := by simpa using hc
        have h' : (tl.find? (fun p => p.1 == id)).isSome := by
          simpa [List.find?, hc'] using h
        simpa [writesOf, List.find?, hc'] using ih h'

/-- Claim C7: `send_input` fails `NotRunning` whenever the project has no
live process; when a live process exists it succeeds and the given text
followed by a line terminator is appended to that process's input
stream. -/
theorem claim_C7_send_input (procs : List (String × List String)) (id text : String) :
    ((∀ e ∈ procs, e.1 ≠ id) →
      send_input procs id text = Except.error InputError.notRunning) ∧
    ((∃ e ∈ procs, e.1 = id) →
      ∃ procs2, send_input procs id text = Except.ok procs2 ∧
        writesOf procs2 id = writesOf procs id ++ [text ++ "\n"]) := by
  constructor
  · intro h
    have hn : procs.find? (fun p => p.1 == id) = none :=
      List.find?_eq_none.mpr (fun x hx => by simpa using h x hx)
    rw [send_input, hn]
  · intro h
    have hs : (procs.find? (fun p => p.1 == id)).isSome := by
      rw [List.find?_isSome]
      obtain ⟨e, he, heq⟩ := h
      exact ⟨e, he, by simpa using heq⟩
    obtain ⟨e, he⟩ := Option.isSome_iff_exists.mp hs
    refine ⟨_, ?_, writesOf_update procs id text hs⟩
    rw [send_input, he]

/-- Witness for claim C7: sending to an empty registry fails
`NotRunning`; sending to a live process appends the chunk. -/
theorem claim_C7_send_input_witness :
    (send_input [] "p" "cmd" = Except.error InputError.notRunning) ∧
    ∃ procs2, send_input [("p", [])] "p" "cmd" = Except.ok procs2 ∧
      writesOf procs2 "p" = writesOf [("p", [])] "p" ++ ["cmd" ++ "\n"] :=
  ⟨(claim_C7_send_input [] "p" "cmd").1 (by simp),
   (claim_C7_send_input [("p", [])] "p" "cmd").2 ⟨("p", []), by simp, rfl⟩⟩

/-! ## Project type detection (claim C8) -/

/-- Embedding of `PROJECT_INDICATORS` (src/unnamed/part_004): per project
kind, the marker files whose presence identifies it, in the fixed
priority order python, node, rust, go, docker. -/
def PROJECT_INDICATORS : List (String × List String) :=
  [("python", ["requirements.txt", "setup.py", "pyproject.toml", "Pipfile"]),
   ("node", ["package.json"]),
   ("rust", ["Cargo.toml"]),
   ("go", ["go.mod"]),
   ("docker", ["docker-compose.yml", "docker-compose.yaml", "Dockerfile"])]

/-- Embedding of `CommandSuggestion` (src/types/index.ts). -/
structure CommandSuggestion where
  command : String
  description : String
  is_recommended : Bool
  deriving Repr, DecidableEq

/-- Embedding of `DetectedProjectInfo` (src/types/index.ts). -/
structure DetectedProjectInfo where
  name : String
  project_type : String
  framework : Option String
  suggestions : List CommandSuggestion
  deriving Repr, DecidableEq

/-- Display name of each detected kind, per the Current Detections table
of src/.agent/skills/add-detection.md. -/
def detectedTypeName (key : String) : String :=
  if key == "python" then "Python"
  else if key == "node" then "Node.js"
  else if key == "rust" then "Rust"
  else if key == "go" then "Go"
  else if key == "docker" then "Docker"
  else "Unknown"

/-- Modelled from the spec: the suggested commands per detected kind —
the detector (`src-tauri/src/detector.rs`, absent from the sources)
returns a ranked command list with descriptions and a recommended flag;
the commands are the Default Commands column of the add-detection skill
table, with the run command recommended. -/
def detectedSuggestions (key : String) : List CommandSuggestion :=
  if key == "python" then
    [⟨"source .venv/Scripts/activate", "Activate the virtual environment", false⟩,
     ⟨"python main.py", "Run the main entry point", true⟩]
  else if key == "node" then
    [⟨"npm install", "Install dependencies", false⟩,
     ⟨"npm run dev", "Start the development server", true⟩]
  else if key == "rust" then
    [⟨"cargo run", "Build and run the project", true⟩]
  else if key == "go" then
    [⟨"go run .", "Run the module", true⟩]
  else if key == "docker" then
    [⟨"docker-compose up", "Start the containers", true⟩]
  else []

/-- Modelled from the spec: `detect_project_from_path`
(`src-tauri/src/detector.rs`, absent from the sources) inspects the
directory's file names non-recursively and the first catalog rule whose
marker list meets them wins, under the fixed priority order of
`PROJECT_INDICATORS`; no rule matching yields the unknown kind. -/
def detect_project_from_path (name : String) (files : List String) :
    DetectedProjectInfo :=
  match PROJECT_INDICATORS.find? (fun r => r.2.any (fun m => files.contains m)) with
  | some r => ⟨name, detectedTypeName r.1, none, detectedSuggestions r.1⟩
  | none => ⟨name, "Unknown", none, []⟩

/-- Claim C8: a directory whose only marker file is `package.json` is
detected as a Node.js project whose suggestions include `npm install` and
`npm run dev`, at least one of them recommended. -/
theorem claim_C8_node_detection (name : String) (files : List String)
    (hpkg : "package.json" ∈ files)
    (hnopy : ∀ m ∈ ["requirements.txt", "setup.py", "pyproject.toml", "Pipfile"],
      m ∉ files) :
    (detect_project_from_path name files).project_type = "Node.js" ∧
    (∃ s ∈ (detect_project_from_path name files).suggestions,
      s.command = "npm install") ∧
    (∃ s ∈ (detect_project_from_path name files).suggestions,
      s.command = "npm run dev") ∧
    (∃ s ∈ (detect_project_from_path name files).suggestions,
      s.is_recommended = true) := by
  have hd : detect_project_from_path name files
      = ⟨name, "Node.js", none, detectedSuggestions "node"⟩ := by
    rw [detect_project_from_path, PROJECT_INDICATORS]
    rw [List.find?_cons_of_neg _ (by
      simp only [List.any_eq_true, not_exists, not_and]
      intro m hm
      have hnip : m ∉ files := hnopy m (by simpa using hm)
      simp [hnip])]
    rw [List.find?_cons_of_pos _ (by
      simp only [List.any_eq_true]
      exact ⟨"package.json", by simp, by simp [hpkg]⟩)]
    rfl
  rw [hd]
  refine ⟨rfl, ⟨⟨"npm install", "Install dependencies", false⟩, by simp [detectedSuggestions], rfl⟩,
    ⟨⟨"npm run dev", "Start the development server", true⟩, by simp [detectedSuggestions], rfl⟩,
    ⟨⟨"npm run dev", "Start the development server", true⟩, by simp [detectedSuggestions], rfl⟩⟩

/-- Witness for claim C8 at a directory containing only `package.json`. -/
theorem claim_C8_node_detection_witness :
    (detect_project_from_path "app" ["package.json"]).project_type = "Node.js" ∧
    (∃ s ∈ (detect_project_from_path "app" ["package.json"]).suggestions,
      s.command = "npm install") ∧
    (∃ s ∈ (detect_project_from_path "app" ["package.json"]).suggestions,
      s.command = "npm run dev") ∧
    (∃ s ∈ (detect_project_from_path "app" ["package.json"]).suggestions,
      s.is_recommended = true) :=
  claim_C8_node_detection "app" ["package.json"] (by simp) (by decide)

/-! ## Events and the crash/restart policy (claim C2) -/

/-- Embedding of the outward event payloads (src/types/index.ts:
`StatusPayload`, `LogPayload`, `CrashPayload`) as one tagged variant. -/
inductive SupEvent where
  | statusChanged (project_id : String) (status : ProcessStatus)
  | logAppended (project_id : String) (log : String)
  | crashed (project_id : String) (restart_count : Nat) (will_restart : Bool)
  deriving Repr, DecidableEq

/-- Runtime policy state of one supervised process: lifecycle state and
consecutive-restart counter. -/
structure PolicyState where
  status : ProcessStatus
  attempts : Nat
  deriving Repr, DecidableEq

/-- Modelled from the spec: the Crash/Restart Policy Engine (Rust
backend, absent from the sources) handling one process exit while
`Running`. With `restart_on_crash=false` the project turns `Error` with a
single status event; otherwise the crash is counted and the incremented
counter is compared with `MAX_RESTART_ATTEMPTS` — the reading under which
§4.3 agrees with the §8 scenario (5 consecutive crashes, the 5th
`Crashed` event carrying `will_restart=false`): below the cap the project
restarts after the delay, at the cap it turns `Error` with no further
automatic restart. -/
def onCrash (id : String) (restart_on_crash : Bool) (st : PolicyState) :
    PolicyState × List SupEvent :=
  if !restart_on_crash then
    (⟨ProcessStatus.error, st.attempts⟩, [SupEvent.statusChanged id ProcessStatus.error])
  else
    let c := st.attempts + 1
    if MAX_RESTART_ATTEMPTS ≤ c then
      (⟨ProcessStatus.error, st.attempts⟩,
       [SupEvent.crashed id c false, SupEvent.statusChanged id ProcessStatus.error])
    else
      (⟨ProcessStatus.running, c⟩,
       [SupEvent.crashed id c true,
        SupEvent.statusChanged id ProcessStatus.restarting,
        SupEvent.statusChanged id ProcessStatus.running])

/-- `n` consecutive crash attempts starting from a freshly started
running project with `restart_on_crash=true`: each crash is handled by
the policy while the process is running; once it is no longer running no
further crash can occur. -/
def crashRun (id : String) : Nat → PolicyState × List SupEvent
  | 0 => (⟨ProcessStatus.running, 0⟩, [])
  | n + 1 =>
      let r := crashRun id n
      if r.1.status = ProcessStatus.running then
        let r2 := onCrash id true r.1
        (r2.1, r.2 ++ r2.2)
      else r

/-- The `(restart_count, will_restart)` payloads of the `Crashed` events
emitted for project `id`, in emission order. -/
def crashPayloads (id : String) (evs : List SupEvent) : List (Nat × Bool) :=
  evs.filterMap (fun e =>
    match e with
    | SupEvent.crashed i rc wr => if i == id then some (rc, wr) else none
    | _ => none)

/-- Claim C2: with `restart_on_crash=true`, 5 consecutive crashes emit
exactly 5 `Crashed` events for the project id with restart counts 1..5,
the first four with `will_restart=true` and the 5th with
`will_restart=false`; the final lifecycle state is `Error` and a further
crash cycle changes nothing — no further automatic restart is
attempted. -/
theorem claim_C2_five_crashes_terminal (id : String) :
    crashPayloads id (crashRun id 5).2
      = [(1, true), (2, true), (3, true), (4, true), (5, false)] ∧
    (crashRun id 5).1.status = ProcessStatus.error ∧
    crashRun id 6 = crashRun id 5 := by
  refine ⟨?_, rfl, rfl⟩
  show crashPayloads id
    [SupEvent.crashed id 1 true, SupEvent.statusChanged id ProcessStatus.restarting,
     SupEvent.statusChanged id ProcessStatus.running,
     SupEvent.crashed id 2 true, SupEvent.statusChanged id ProcessStatus.restarting,
     SupEvent.statusChanged id ProcessStatus.running,
     SupEvent.crashed id 3 true, SupEvent.statusChanged id ProcessStatus.restarting,
     SupEvent.statusChanged id ProcessStatus.running,
     SupEvent.crashed id 4 true, SupEvent.statusChanged id ProcessStatus.restarting,
     SupEvent.statusChanged id ProcessStatus.running,
     SupEvent.crashed id 5 false, SupEvent.statusChanged id ProcessStatus.error]
      = [(1, true), (2, true), (3, true), (4, true), (5, false)]
  simp [crashPayloads]

/-! ## Deleting a project silences its events (claim C5) -/

/-- The project id an event is attributed to. -/
def eventId : SupEvent → String
  | SupEvent.statusChanged i _ => i
  | SupEvent.logAppended i _ => i
  | SupEvent.crashed i _ _ => i

/-- Modelled from the spec: the supervisor state visible to event
attribution — the managed project ids, the ids with a live process entry,
and every id ever issued (ids are opaque unique keys, never reused). -/
structure SupState where
  projects : List String
  liveIds : List String
  usedIds : List String

/-- Modelled from the spec: `delete_project` force-stops any live process
of the project (its live entry is removed) and removes the project; the
id stays among the used ids. -/
def delete_project (s : SupState) (id : String) : SupState :=
  ⟨s.projects.filter (fun x => !(x == id)),
   s.liveIds.filter (fun x => !(x == id)),
   s.usedIds⟩

/-- Modelled from the spec: one observable supervisor step and the events
it publishes. Output, crash and spontaneous status events originate from
a live process entry; explicit start and stop act on a managed project;
`add_project` issues a fresh id; a delete is a further delete of some
project. -/
inductive SupStep : SupState → List SupEvent → SupState → Prop where
  | output (s : SupState) (id line : String) (h : id ∈ s.liveIds) :
      SupStep s [SupEvent.logAppended id line] s
  | statusEvent (s : SupState) (id : String) (st : ProcessStatus)
      (h : id ∈ s.liveIds) :
      SupStep s [SupEvent.statusChanged id st] s
  | crashEvent (s : SupState) (id : String) (rc : Nat) (wr : Bool)
      (h : id ∈ s.liveIds) :
      SupStep s [SupEvent.crashed id rc wr] s
  | exitRemove (s : SupState) (id : String) (h : id ∈ s.liveIds) :
      SupStep s [SupEvent.statusChanged id ProcessStatus.stopped]
        ⟨s.projects, s.liveIds.filter (fun x => !(x == id)), s.usedIds⟩
  | startP (s : SupState) (id : String) (h : id ∈ s.projects) :
      SupStep s [SupEvent.statusChanged id ProcessStatus.running]
        ⟨s.projects, id :: s.liveIds, s.usedIds⟩
  | stopP (s : SupState) (id : String) (h : id ∈ s.projects) :
      SupStep s [SupEvent.statusChanged id ProcessStatus.stopped]
        ⟨s.projects, s.liveIds.filter (fun x => !(x == id)), s.usedIds⟩
  | deleteP (s : SupState) (id : String) :
      SupStep s [] (delete_project s id)
  | addP (s : SupState) (id : String) (h : id ∉ s.usedIds) :
      SupStep s [] ⟨id :: s.projects, s.liveIds, id :: s.usedIds⟩

/-- A finite run of supervisor steps and the events it publishes. -/
inductive SupTrace : SupState → List SupEvent → SupState → Prop where
  | refl (s : SupState) : SupTrace s [] s
  | step (s1 : SupState) (evs1 : List SupEvent) (s2 : SupState)
      (evs2 : List SupEvent) (s3 : SupState) :
      SupStep s1 evs1 s2 → SupTrace s2 evs2 s3 → SupTrace s1 (evs1 ++ evs2) s3

/-- An id that is gone from the supervisor but remains a used key. -/
def absentId (s : SupState) (id : String) : Prop :=
  id ∉ s.projects ∧ id ∉ s.liveIds ∧ id ∈ s.usedIds

lemma not_mem_filter_self (l : List String) (id : String) :
    id ∉ l.filter (fun x => !(x == id)) := by
  intro h
  have := (List.mem_filter.mp h).2
  simp at this

lemma step_events_sourced {s1 : SupState} {evs : List SupEvent} {s2 : SupState}
    (h : SupStep s1 evs s2) :
    ∀ e ∈ evs, eventId e ∈ s1.projects ∨ eventId e ∈ s1.liveIds := by
  cases h <;> intro e he <;> simp only [List.mem_singleton, List.not_mem_nil] at he
  case output id line hl => subst he; exact Or.inr hl
  case statusEvent id st hl => subst he; exact Or.inr hl
  case crashEvent id rc wr hl => subst he; exact Or.inr hl
  case exitRemove id hl => subst he; exact Or.inr hl
  case startP id hp => subst he; exact Or.inl hp
  case stopP id hp => subst he; exact Or.inl hp

lemma step_preserves_absent {s1 : SupState} {evs : List SupEvent} {s2 : SupState}
    {id : String} (h : SupStep s1 evs s2) (ha : absentId s1 id) :
    absentId s2 id := by
  obtain ⟨hp, hl, hu⟩ := ha
  cases h
  case output => exact ⟨hp, hl, hu⟩
  case statusEvent => exact ⟨hp, hl, hu⟩
  case crashEvent => exact ⟨hp, hl, hu⟩
  case exitRemove id2 hl2 =>
      refine ⟨hp, ?_, hu⟩
      intro hmem
      exact hl (List.mem_filter.mp hmem).1
  case startP id2 hp2 =>
      refine ⟨hp, ?_, hu⟩
      intro hmem
      rcases List.mem_cons.mp hmem with heq | hmem2
      · exact hp (heq ▸ hp2)
      · exact hl hmem2
  case stopP id2 hp2 =>
      refine ⟨hp, ?_, hu⟩
      intro hmem
      exact hl (List.mem_filter.mp hmem).1
  case deleteP id2 =>
      refine ⟨?_, ?_, hu⟩
      · intro hmem
        exact hp (List.mem_filter.mp hmem).1
      · intro hmem
        exact hl (List.mem_filter.mp hmem).1
  case addP id2 hfresh =>
      refine ⟨?_, hl, List.mem_cons_of_mem _ hu⟩
      intro hmem
      rcases List.mem_cons.mp hmem with heq | hmem2
      · exact hfresh (heq ▸ hu)
      · exact hp hmem2

lemma trace_no_events_for_absent {s1 : SupState} {evs : List SupEvent}
    {s2 : SupState} {id : String} (ht : SupTrace s1 evs s2)
    (ha : absentId s1 id) : ∀ e ∈ evs, eventId e ≠ id := by
  induction ht with
  | refl s => intro e he; cases he
  | step t1 evs1 t2 evs2 t3 hstep htrace ih =>
      intro e he heq
      rcases List.mem_append.mp he with h1 | h2
      · rcases step_events_sourced hstep e h1 with hin | hin
        · exact ha.1 (heq ▸ hin)
        · exact ha.2.1 (heq ▸ hin)
      · exact ih (step_preserves_absent hstep ha) e h2 heq

/-- Frontend per-project records kept by `useProjects`
(src/unnamed/part_007): project ids, statuses and logs. -/
structure FrontendState where
  projects : List String
  statuses : List (String × ProcessStatus)
  logs : List (String × List String)

/-- Embedding of `deleteProject` from `useProjects`
(src/unnamed/part_007): the project is filtered out of the list and its
status and log records are deleted. -/
def deleteProjectFrontend (st : FrontendState) (id : String) : FrontendState :=
  ⟨st.projects.filter (fun p => !(p == id)),
   st.statuses.filter (fun p => !(p.1 == id)),
   st.logs.filter (fun p => !(p.1 == id))⟩

/-- Claim C5: after `delete_project(id)` completes, the project is
removed, any live process of it is gone (force-stopped before deletion),
no event of any kind is ever emitted for the id along any further
supervisor run, and the frontend drops its status and log records. -/
theorem claim_C5_delete_silences (s : SupState) (id : String)
    (hused : id ∈ s.usedIds) (fs : FrontendState) :
    id ∉ (delete_project s id).projects ∧
    id ∉ (delete_project s id).liveIds ∧
    (∀ evs s2, SupTrace (delete_project s id) evs s2 →
      ∀ e ∈ evs, eventId e ≠ id) ∧
    id ∉ (deleteProjectFrontend fs id).projects ∧
    (∀ e ∈ (deleteProjectFrontend fs id).statuses, e.1 ≠ id) ∧
    (∀ e ∈ (deleteProjectFrontend fs id).logs, e.1 ≠ id) := by
  have habs : absentId (delete_project s id) id :=
    ⟨not_mem_filter_self _ _, not_mem_filter_self _ _, hused⟩
  refine ⟨habs.1, habs.2.1, ?_, not_mem_filter_self _ _, ?_, ?_⟩
  · intro evs s2 ht
    exact trace_no_events_for_absent ht habs
  · intro e he heq
    have := (List.mem_filter.mp he).2
    rw [heq] at this
    simp at this
  · intro e he heq
    have := (List.mem_filter.mp he).2
    rw [heq] at this
    simp at this

/-- Witness for claim C5: deleting project `a` in a two-project system
where `a` is running; a subsequent log event of the surviving project
`b` shows the conclusion on a concrete nonempty trace. -/
theorem claim_C5_delete_silences_witness :
    (("a" : String) ∈ (⟨["a", "b"], ["a", "b"], ["a", "b"]⟩ : SupState).usedIds) ∧
    ("a" : String) ∉ (delete_project ⟨["a", "b"], ["a", "b"], ["a", "b"]⟩ "a").liveIds ∧
    (∀ e ∈ [SupEvent.logAppended "b" "hi"], eventId e ≠ "a") := by
  have happ := claim_C5_delete_silences ⟨["a", "b"], ["a", "b"], ["a", "b"]⟩ "a"
    (by simp) ⟨["a", "b"], [], []⟩
  refine ⟨by simp, happ.2.1, ?_⟩
  have hstep : SupStep (delete_project ⟨["a", "b"], ["a", "b"], ["a", "b"]⟩ "a")
      [SupEvent.logAppended "b" "hi"]
      (delete_project ⟨["a", "b"], ["a", "b"], ["a", "b"]⟩ "a") :=
    SupStep.output _ "b" "hi" (by decide)
  have htr := SupTrace.step _ _ _ [] _ hstep (SupTrace.refl _)
  simpa using happ.2.2.1 _ _ htr

end DevBoot
